import Mathlib

/-!
Verification development for the `detchannelmaps` hardware-map service.

The definitions below are a shallow embedding of the C++ sources:
* `src/src/HardwareMapService.cpp` — parsing a hardware-map file, index
  construction (`setup_maps`), and the lookup queries;
* `src/plugins/PD2HDChannelMap.cpp` — the channel-map adapter.

Machine integers are modelled as `Nat` with explicit reductions modulo
`2 ^ 16`, `2 ^ 32` or `2 ^ 64` exactly where the C++ types force them.
`std::map` is modelled as an association list kept sorted by key (its
iteration order), and the fallible query `get_dro_info` returns `Except`.
-/

namespace DetChannelMaps

/-- One physical readout link record.  Field list as used by
`HardwareMapService.cpp`; the numeric widths (`uint32_t` source id,
`uint16_t` detector fields) are carried as `Nat`. -/
structure HWInfo where
  dro_source_id : Nat
  det_link : Nat
  det_slot : Nat
  det_crate : Nat
  det_id : Nat
  dro_host : String
  dro_card : Nat
  dro_slr : Nat
  dro_link : Nat
  from_file : Bool
deriving DecidableEq, Repr

/-- Modelled from the spec: the default-constructed `HWInfo` (the struct
itself lives in the repository's generated header, not under `src/`):
all numeric fields zero, empty host string, `from_file` false. -/
def defaultHWInfo : HWInfo :=
  { dro_source_id := 0, det_link := 0, det_slot := 0, det_crate := 0, det_id := 0,
    dro_host := "", dro_card := 0, dro_slr := 0, dro_link := 0, from_file := false }

/-- Decomposed form of a 64-bit geographic identifier. -/
structure GeoInfo where
  det_link : Nat
  det_slot : Nat
  det_crate : Nat
  det_id : Nat
deriving DecidableEq, Repr

/-- `HardwareMapService::get_geo_id(det_link, det_slot, det_crate, det_id)`:
`uint64_t geoid = uint64(det_link) << 48 | uint64(det_slot) << 32 |
uint64(det_crate) << 16 | det_id`.  The `% 65536` on each argument models
the `uint16_t` parameter type. -/
def get_geo_id_fields (det_link det_slot det_crate det_id : Nat) : Nat :=
  (det_link % 65536) <<< 48 ||| (det_slot % 65536) <<< 32 |||
    (det_crate % 65536) <<< 16 ||| (det_id % 65536)

/-- `HardwareMapService::get_geo_id(const HWInfo)`. -/
def get_geo_id (hw_info : HWInfo) : Nat :=
  get_geo_id_fields hw_info.det_link hw_info.det_slot hw_info.det_crate hw_info.det_id

/-- `HardwareMapService::parse_geo_id(const uint64_t geo_id)`. -/
def parse_geo_id (geo_id : Nat) : GeoInfo :=
  { det_link := 0xffff &&& (geo_id >>> 48),
    det_slot := 0xffff &&& (geo_id >>> 32),
    det_crate := 0xffff &&& (geo_id >>> 16),
    det_id := 0xffff &&& geo_id }

/-! ### Bit-packing arithmetic -/

/-- Bitwise-or of a multiple of `2 ^ n` with a value below `2 ^ n` is
ordinary addition. -/
theorem mul_pow_or_eq_add (a : Nat) :
    ∀ n b : Nat, b < 2 ^ n → a * 2 ^ n ||| b = a * 2 ^ n + b := by
  intro n
  induction n generalizing a with
  | zero =>
    intro b hb
    have hb0 : b = 0 := Nat.lt_one_iff.mp hb
    simp [hb0]
  | succ n ih =>
    intro b hb
    have hhi : a * 2 ^ (n + 1) = 2 * (a * 2 ^ n) := by ring
    have heven : a * 2 ^ (n + 1) % 2 = 0 := by omega
    have hdiv2 : a * 2 ^ (n + 1) / 2 = a * 2 ^ n := by omega
    have hXdiv : (a * 2 ^ (n + 1) ||| b) / 2 = a * 2 ^ n ||| b / 2 := by
      rw [Nat.or_div_two, hdiv2]
    have hXmod : (a * 2 ^ (n + 1) ||| b) % 2 = b % 2 := by
      have h1 : (a * 2 ^ (n + 1) ||| b) % 2 = 1 ↔
          (a * 2 ^ (n + 1) ||| b).testBit 0 = true :=
        Nat.mod_two_eq_one_iff_testBit_zero
      have h2 : b % 2 = 1 ↔ b.testBit 0 = true := Nat.mod_two_eq_one_iff_testBit_zero
      have h3 : (a * 2 ^ (n + 1) ||| b).testBit 0 =
          ((a * 2 ^ (n + 1)).testBit 0 || b.testBit 0) := Nat.testBit_or ..
      have h4 : (a * 2 ^ (n + 1)).testBit 0 = false := by
        have hne : ¬ (a * 2 ^ (n + 1)) % 2 = 1 := by omega
        simpa [Nat.testBit_zero] using hne
      rw [h4, Bool.false_or] at h3
      rw [h3] at h1
      have hiff : (a * 2 ^ (n + 1) ||| b) % 2 = 1 ↔ b % 2 = 1 := h1.trans h2.symm
      have hm1 := Nat.mod_two_eq_zero_or_one (a * 2 ^ (n + 1) ||| b)
      have hm2 := Nat.mod_two_eq_zero_or_one b
      omega
    have hpow : (2 : Nat) ^ (n + 1) = 2 ^ n * 2 := by ring
    have hb2 : b / 2 < 2 ^ n := by omega
    have hIH : a * 2 ^ n ||| b / 2 = a * 2 ^ n + b / 2 := ih a (b / 2) hb2
    have hsplit : a * 2 ^ (n + 1) ||| b =
        2 * ((a * 2 ^ (n + 1) ||| b) / 2) + (a * 2 ^ (n + 1) ||| b) % 2 :=
      (Nat.div_add_mod _ 2).symm
    rw [hXdiv, hIH, hXmod] at hsplit
    omega

/-- `get_geo_id` in plain positional arithmetic. -/
theorem get_geo_id_fields_eq (l s c i : Nat)
    (hl : l < 65536) (hs : s < 65536) (hc : c < 65536) (hi : i < 65536) :
    get_geo_id_fields l s c i =
      l * 2 ^ 48 + s * 2 ^ 32 + c * 2 ^ 16 + i := by
  unfold get_geo_id_fields
  rw [Nat.mod_eq_of_lt hl, Nat.mod_eq_of_lt hs, Nat.mod_eq_of_lt hc, Nat.mod_eq_of_lt hi]
  rw [Nat.shiftLeft_eq, Nat.shiftLeft_eq, Nat.shiftLeft_eq]
  have h1 : l * 2 ^ 48 ||| s * 2 ^ 32 = l * 2 ^ 48 + s * 2 ^ 32 := by
    apply mul_pow_or_eq_add
    calc s * 2 ^ 32 < 2 ^ 16 * 2 ^ 32 :=
          mul_lt_mul_of_pos_right (show s < 2 ^ 16 from hs) (by positivity)
      _ = 2 ^ 48 := by norm_num
  have h2 : l * 2 ^ 48 + s * 2 ^ 32 ||| c * 2 ^ 16 =
      l * 2 ^ 48 + s * 2 ^ 32 + c * 2 ^ 16 := by
    have hform : l * 2 ^ 48 + s * 2 ^ 32 = (l * 2 ^ 16 + s) * 2 ^ 32 := by ring
    rw [hform, mul_pow_or_eq_add]
    omega
  have h3 : l * 2 ^ 48 + s * 2 ^ 32 + c * 2 ^ 16 ||| i =
      l * 2 ^ 48 + s * 2 ^ 32 + c * 2 ^ 16 + i := by
    have hform : l * 2 ^ 48 + s * 2 ^ 32 + c * 2 ^ 16 =
        (l * 2 ^ 32 + s * 2 ^ 16 + c) * 2 ^ 16 := by ring
    rw [hform, mul_pow_or_eq_add]
    omega
  rw [h1, h2, h3]

/-- Each component of `parse_geo_id` is a div/mod extraction. -/
theorem parse_geo_id_eq (x : Nat) :
    parse_geo_id x =
      { det_link := x / 2 ^ 48 % 2 ^ 16,
        det_slot := x / 2 ^ 32 % 2 ^ 16,
        det_crate := x / 2 ^ 16 % 2 ^ 16,
        det_id := x % 2 ^ 16 } := by
  unfold parse_geo_id
  have hmask : (0xffff : Nat) = 2 ^ 16 - 1 := by norm_num
  congr 1
  · rw [Nat.and_comm, hmask, Nat.and_pow_two_sub_one_eq_mod, Nat.shiftRight_eq_div_pow]
  · rw [Nat.and_comm, hmask, Nat.and_pow_two_sub_one_eq_mod, Nat.shiftRight_eq_div_pow]
  · rw [Nat.and_comm, hmask, Nat.and_pow_two_sub_one_eq_mod, Nat.shiftRight_eq_div_pow]
  · rw [Nat.and_comm, hmask, Nat.and_pow_two_sub_one_eq_mod]

/-- Claim C1: `parse_geo_id` is the exact inverse of `get_geo_id`: packing any
four 16-bit fields and unpacking returns exactly those fields, and for any
64-bit value whose top 16 bits are zero (i.e. below `2 ^ 48`), unpacking and
repacking returns the original value. -/
theorem parse_geo_id_inverse_of_get_geo_id
    (l s c i x : Nat) (hl : l < 2 ^ 16) (hs : s < 2 ^ 16) (hc : c < 2 ^ 16)
    (hi : i < 2 ^ 16) (hx : x < 2 ^ 48) :
    parse_geo_id (get_geo_id_fields l s c i) = GeoInfo.mk l s c i ∧
    get_geo_id_fields (parse_geo_id x).det_link (parse_geo_id x).det_slot
      (parse_geo_id x).det_crate (parse_geo_id x).det_id = x := by
  constructor
  · rw [get_geo_id_fields_eq l s c i hl hs hc hi, parse_geo_id_eq]
    have e16 : (2 : Nat) ^ 16 = 65536 := by norm_num
    have e32 : (2 : Nat) ^ 32 = 4294967296 := by norm_num
    have e48 : (2 : Nat) ^ 48 = 281474976710656 := by norm_num
    rw [e16, e32, e48] at *
    congr 1 <;> omega
  · rw [parse_geo_id_eq]
    dsimp only
    rw [get_geo_id_fields_eq] <;> omega

/-- Witness for C1 at concrete fields `(2, 3, 4, 5)` and the packed value
`x = 2 * 2 ^ 48 + 3 * 2 ^ 32 + 4 * 2 ^ 16 + 5` is not needed here; we use a
48-bit value `x = 12345678901234`. -/
theorem parse_geo_id_inverse_of_get_geo_id_witness :
    parse_geo_id (get_geo_id_fields 2 3 4 5) = GeoInfo.mk 2 3 4 5 ∧
    get_geo_id_fields (parse_geo_id 12345678901234).det_link
      (parse_geo_id 12345678901234).det_slot
      (parse_geo_id 12345678901234).det_crate
      (parse_geo_id 12345678901234).det_id = 12345678901234 :=
  parse_geo_id_inverse_of_get_geo_id 2 3 4 5 12345678901234
    (by norm_num) (by norm_num) (by norm_num) (by norm_num) (by norm_num)

/-! ### The three derived indices

`std::map` is modelled as an association list.  The geo-id index keeps its
entries sorted in strictly increasing key order — `std::map`'s iteration
order — because `setup_maps` and `get_hardware_map` iterate it.  The
source-id and DRO indices are only ever read through `find`, so they are
modelled as plain association lists with in-place update. -/

/-- Lookup in an association list (`std::map::find`). -/
def assocFind {α β : Type} [DecidableEq α] (m : List (α × β)) (k : α) : Option β :=
  match m with
  | [] => none
  | (k', v) :: rest => if k' = k then some v else assocFind rest k

/-- Replace the value stored at a present key, leaving everything else
unchanged (mutating `it->second` through an iterator / `operator[]` on a
present key). -/
def assocUpdate {α β : Type} [DecidableEq α] (m : List (α × β)) (k : α) (v : β) :
    List (α × β) :=
  match m with
  | [] => []
  | (k', v') :: rest =>
    if k' = k then (k, v) :: rest else (k', v') :: assocUpdate rest k v

/-- Insertion into the sorted geo-id index: `m_geo_id_to_info_map[k] = v`
on an ordered `std::map` — overwrite if the key is present, otherwise
insert at the sorted position. -/
def insertSorted (k : Nat) (v : HWInfo) : List (Nat × HWInfo) → List (Nat × HWInfo)
  | [] => [(k, v)]
  | (k', v') :: rest =>
    if k < k' then (k, v) :: (k', v') :: rest
    else if k = k' then (k, v) :: rest
    else (k', v') :: insertSorted k v rest

/-- Aggregation of all `HWInfo` sharing one (host, card) pair.  The struct
lives in the repository's generated header; field set from its use in
`setup_maps` (`DROInfo{ hwi.dro_host, hwi.dro_card, { hwi } }`, `.links`). -/
structure DROInfo where
  dro_host : String
  dro_card : Nat
  links : List HWInfo
deriving DecidableEq, Repr

/-- The flat hardware map: `struct HardwareMap { std::vector<HWInfo> link_infos; }`. -/
structure HardwareMap where
  link_infos : List HWInfo
deriving DecidableEq, Repr

/-- One iteration of the first loop of `setup_maps`, source-id side:
look the source id up; push the record into an existing bucket, otherwise
create a one-element bucket. -/
def srcInsert (hw_info : HWInfo) (m : List (Nat × List HWInfo)) :
    List (Nat × List HWInfo) :=
  match assocFind m hw_info.dro_source_id with
  | some vec => assocUpdate m hw_info.dro_source_id (vec ++ [hw_info])
  | none => m ++ [(hw_info.dro_source_id, [hw_info])]

/-- First loop of `setup_maps`: over the input records in order, write the
geo-id index (`m_geo_id_to_info_map[get_geo_id(hw_info)] = hw_info`) and
push into the source-id index. -/
def setup_loop1 :
    List HWInfo → List (Nat × HWInfo) × List (Nat × List HWInfo) →
      List (Nat × HWInfo) × List (Nat × List HWInfo)
  | [], st => st
  | hw_info :: rest, (gm, sm) =>
    setup_loop1 rest (insertSorted (get_geo_id hw_info) hw_info gm, srcInsert hw_info sm)

/-- One iteration of the second loop of `setup_maps`: `m_dro_info_map` keyed
by the (host, card) pair — append to `.links` if the key is present,
otherwise create `DROInfo{ host, card, { hwi } }`. -/
def droInsert (hwi : HWInfo) (m : List ((String × Nat) × DROInfo)) :
    List ((String × Nat) × DROInfo) :=
  match assocFind m (hwi.dro_host, hwi.dro_card) with
  | some d => assocUpdate m (hwi.dro_host, hwi.dro_card)
      { d with links := d.links ++ [hwi] }
  | none => m ++ [((hwi.dro_host, hwi.dro_card),
      { dro_host := hwi.dro_host, dro_card := hwi.dro_card, links := [hwi] })]

/-- Second loop of `setup_maps`: iterate the now-complete geo-id index in
its (sorted) order and group the stored records by (host, card). -/
def setup_loop2 :
    List (Nat × HWInfo) → List ((String × Nat) × DROInfo) →
      List ((String × Nat) × DROInfo)
  | [], dm => dm
  | (_, hwi) :: rest, dm => setup_loop2 rest (droInsert hwi dm)

/-- The service state after construction: the three member maps of
`HardwareMapService`. -/
structure HardwareMapService where
  m_geo_id_to_info_map : List (Nat × HWInfo)
  m_source_id_to_geo_ids_map : List (Nat × List HWInfo)
  m_dro_info_map : List ((String × Nat) × DROInfo)
deriving DecidableEq, Repr

/-- `HardwareMapService::setup_maps`. -/
def setup_maps (map : HardwareMap) : HardwareMapService :=
  let st := setup_loop1 map.link_infos ([], [])
  { m_geo_id_to_info_map := st.1,
    m_source_id_to_geo_ids_map := st.2,
    m_dro_info_map := setup_loop2 st.1 [] }

/-- `HardwareMapService::get_hardware_map`: the geo-id index's values in
iteration order. -/
def get_hardware_map (svc : HardwareMapService) : HardwareMap :=
  { link_infos := svc.m_geo_id_to_info_map.map (fun gid => gid.2) }

/-- `HardwareMapService::get_hw_info_from_source_id`. -/
def get_hw_info_from_source_id (svc : HardwareMapService) (dro_source_id : Nat) :
    List HWInfo :=
  match assocFind svc.m_source_id_to_geo_ids_map dro_source_id with
  | some vec => vec
  | none => []

/-- `HardwareMapService::get_hw_info_from_geo_id`: the stored record, or a
default-constructed `HWInfo` with `from_file = false`. -/
def get_hw_info_from_geo_id (svc : HardwareMapService) (geo_id : Nat) : HWInfo :=
  match assocFind svc.m_geo_id_to_info_map geo_id with
  | some hw_info => hw_info
  | none => { defaultHWInfo with from_file := false }

/-- `HardwareMapService::get_all_dro_info`. -/
def get_all_dro_info (svc : HardwareMapService) : List DROInfo :=
  svc.m_dro_info_map.map (fun entry => entry.2)

/-- The message of the exception thrown by `get_dro_info` on an unknown
(host, card) pair. -/
def dro_error_msg (host_name : String) (dro_card : Nat) : String :=
  "HardwareMapService: Invalid DRO host/card pair " ++ host_name ++ "/" ++
    toString dro_card

/-- `HardwareMapService::get_dro_info`: return the matching `DROInfo`, or
throw a `runtime_error` (modelled as `Except.error`). -/
def get_dro_info (svc : HardwareMapService) (host_name : String) (dro_card : Nat) :
    Except String DROInfo :=
  match assocFind svc.m_dro_info_map (host_name, dro_card) with
  | some dro => Except.ok dro
  | none => Except.error (dro_error_msg host_name dro_card)

/-! ### Lemmas about the association-list maps -/

theorem assocFind_insertSorted_self (k : Nat) (v : HWInfo) (m : List (Nat × HWInfo)) :
    assocFind (insertSorted k v m) k = some v := by
  induction m with
  | nil => simp [insertSorted, assocFind]
  | cons e rest ih =>
    obtain ⟨k', v'⟩ := e
    by_cases h1 : k < k'
    · simp [insertSorted, h1, assocFind]
    · by_cases h2 : k = k'
      · simp [insertSorted, h1, h2, assocFind]
      · have h3 : ¬ k' = k := fun h => h2 h.symm
        simp [insertSorted, h1, h2, assocFind, h3, ih]

theorem assocFind_insertSorted_ne {k j : Nat} (v : HWInfo) (m : List (Nat × HWInfo))
    (hne : k ≠ j) : assocFind (insertSorted k v m) j = assocFind m j := by
  induction m with
  | nil => simp [insertSorted, assocFind, hne]
  | cons e rest ih =>
    obtain ⟨k', v'⟩ := e
    by_cases h1 : k < k'
    · simp [insertSorted, h1, assocFind, hne]
    · by_cases h2 : k = k'
      · subst h2
        simp [insertSorted, h1, assocFind, hne]
      · simp [insertSorted, h1, h2, assocFind, ih]

theorem mem_insertSorted {k : Nat} {v : HWInfo} {m : List (Nat × HWInfo)}
    {e : Nat × HWInfo} (he : e ∈ insertSorted k v m) : e = (k, v) ∨ e ∈ m := by
  induction m with
  | nil => simpa [insertSorted] using he
  | cons e' rest ih =>
    obtain ⟨k', v'⟩ := e'
    by_cases h1 : k < k'
    · simp only [insertSorted, if_pos h1, List.mem_cons] at he
      simp only [List.mem_cons]
      tauto
    · by_cases h2 : k = k'
      · rw [insertSorted, if_neg h1, if_pos h2] at he
        simp only [List.mem_cons] at he
        simp only [List.mem_cons]
        tauto
      · rw [insertSorted, if_neg h1, if_neg h2] at he
        simp only [List.mem_cons] at he
        simp only [List.mem_cons]
        rcases he with he | he
        · tauto
        · rcases ih he with h | h <;> tauto

theorem mem_keys_insertSorted {k j : Nat} {v : HWInfo} {m : List (Nat × HWInfo)} :
    j ∈ (insertSorted k v m).map Prod.fst ↔ j = k ∨ j ∈ m.map Prod.fst := by
  induction m with
  | nil => simp [insertSorted]
  | cons e rest ih =>
    obtain ⟨k', v'⟩ := e
    by_cases h1 : k < k'
    · rw [insertSorted, if_pos h1]
      simp only [List.map_cons, List.mem_cons]
    · by_cases h2 : k = k'
      · rw [insertSorted, if_neg h1, if_pos h2]
        subst h2
        simp only [List.map_cons, List.mem_cons]
        tauto
      · rw [insertSorted, if_neg h1, if_neg h2]
        simp only [List.map_cons, List.mem_cons, ih]
        tauto

theorem pairwise_keys_insertSorted {k : Nat} {v : HWInfo} {m : List (Nat × HWInfo)}
    (hm : List.Pairwise (· < ·) (m.map Prod.fst)) :
    List.Pairwise (· < ·) ((insertSorted k v m).map Prod.fst) := by
  induction m with
  | nil =>
    rw [insertSorted]
    exact List.pairwise_singleton ..
  | cons e rest ih =>
    obtain ⟨k', v'⟩ := e
    simp only [List.map_cons, List.pairwise_cons] at hm
    obtain ⟨hk', hrest⟩ := hm
    by_cases h1 : k < k'
    · rw [insertSorted, if_pos h1]
      simp only [List.map_cons]
      refine List.Pairwise.cons ?_ (List.Pairwise.cons hk' hrest)
      intro b hb
      rcases List.mem_cons.mp hb with rfl | hb
      · exact h1
      · exact h1.trans (hk' b hb)
    · by_cases h2 : k = k'
      · rw [insertSorted, if_neg h1, if_pos h2]
        subst h2
        simp only [List.map_cons]
        exact List.Pairwise.cons hk' hrest
      · rw [insertSorted, if_neg h1, if_neg h2]
        simp only [List.map_cons]
        refine List.Pairwise.cons ?_ (ih hrest)
        intro b hb
        rcases mem_keys_insertSorted.mp hb with rfl | hb'
        · omega
        · exact hk' b hb'

theorem assocFind_eq_some_of_mem {m : List (Nat × HWInfo)} {j : Nat} {w : HWInfo}
    (hp : List.Pairwise (· < ·) (m.map Prod.fst)) (hmem : (j, w) ∈ m) :
    assocFind m j = some w := by
  induction m with
  | nil => simp at hmem
  | cons e rest ih =>
    obtain ⟨k', v'⟩ := e
    simp only [List.map_cons, List.pairwise_cons] at hp
    obtain ⟨hk', hrest⟩ := hp
    rcases List.mem_cons.mp hmem with he | he
    · injection he with h1 h2
      subst h1
      subst h2
      simp [assocFind]
    · have hne : k' ≠ j := by
        intro hkj
        have hj : j ∈ rest.map Prod.fst := List.mem_map_of_mem Prod.fst he
        have := hk' j hj
        omega
      simp [assocFind, hne, ih hrest he]

theorem assocFind_mem {m : List (Nat × HWInfo)} {j : Nat} {w : HWInfo}
    (h : assocFind m j = some w) : (j, w) ∈ m := by
  induction m with
  | nil => simp [assocFind] at h
  | cons e rest ih =>
    obtain ⟨k', v'⟩ := e
    by_cases hk : k' = j
    · subst hk
      simp [assocFind] at h
      simp [h]
    · simp [assocFind, hk] at h
      exact List.mem_cons_of_mem _ (ih h)

/-! ### Last-write-wins on the geo-id index -/

/-- The record that occurs last in input order among those with geo-id `g`
(later records take precedence). -/
def lastWithGeo (g : Nat) : List HWInfo → Option HWInfo
  | [] => none
  | hw_info :: rest =>
    match lastWithGeo g rest with
    | some r => some r
    | none => if get_geo_id hw_info = g then some hw_info else none

theorem lastWithGeo_eq_none_iff {g : Nat} {l : List HWInfo} :
    lastWithGeo g l = none ↔ ∀ h ∈ l, get_geo_id h ≠ g := by
  induction l with
  | nil => simp [lastWithGeo]
  | cons a rest ih =>
    constructor
    · intro h
      unfold lastWithGeo at h
      rcases hr : lastWithGeo g rest with _ | r
      · rw [hr] at h
        intro x hx
        rcases List.mem_cons.mp hx with rfl | hx
        · intro hg
          simp [hg] at h
        · exact ih.mp hr x hx
      · rw [hr] at h
        simp at h
    · intro h
      unfold lastWithGeo
      rw [ih.mpr (fun x hx => h x (List.mem_cons_of_mem _ hx))]
      simp [h a (List.mem_cons_self ..)]

theorem loop1_geo_find_of_none {g : Nat} {l : List HWInfo}
    (hl : lastWithGeo g l = none) (gm : List (Nat × HWInfo))
    (sm : List (Nat × List HWInfo)) :
    assocFind (setup_loop1 l (gm, sm)).1 g = assocFind gm g := by
  induction l generalizing gm sm with
  | nil => simp [setup_loop1]
  | cons a rest ih =>
    have hnone : lastWithGeo g rest = none := by
      have := lastWithGeo_eq_none_iff.mp hl
      exact lastWithGeo_eq_none_iff.mpr fun x hx => this x (List.mem_cons_of_mem _ hx)
    have hne : get_geo_id a ≠ g := lastWithGeo_eq_none_iff.mp hl a (List.mem_cons_self ..)
    simp only [setup_loop1]
    rw [ih hnone]
    exact assocFind_insertSorted_ne a gm hne

theorem loop1_geo_find_of_last {g : Nat} {l : List HWInfo} {r : HWInfo}
    (hl : lastWithGeo g l = some r) (gm : List (Nat × HWInfo))
    (sm : List (Nat × List HWInfo)) :
    assocFind (setup_loop1 l (gm, sm)).1 g = some r := by
  induction l generalizing gm sm with
  | nil => simp [lastWithGeo] at hl
  | cons a rest ih =>
    unfold lastWithGeo at hl
    rcases hr : lastWithGeo g rest with _ | r'
    · rw [hr] at hl
      simp only [setup_loop1]
      by_cases hg : get_geo_id a = g
      · simp only [hg, if_pos rfl] at hl
        injection hl with hl
        subst hl
        rw [loop1_geo_find_of_none hr, ← hg]
        exact assocFind_insertSorted_self ..
      · simp [hg] at hl
    · rw [hr] at hl
      injection hl with hl
      subst hl
      exact ih hr ..

/-- The geo-id index built by `setup_maps` maps each geo-id to the last
input record carrying it. -/
theorem setup_find_eq_lastWithGeo (map : HardwareMap) (g : Nat) :
    assocFind (setup_maps map).m_geo_id_to_info_map g = lastWithGeo g map.link_infos := by
  rcases hr : lastWithGeo g map.link_infos with _ | r
  · simpa [setup_maps] using loop1_geo_find_of_none hr [] []
  · simpa [setup_maps] using loop1_geo_find_of_last hr [] []

/-- Claim C5: duplicate geo-ids in the input are not an error — `setup_maps`
is a total function — and the geo-id index holds, for every geo-id, exactly
the record that occurs last in input order with that geo-id. -/
theorem setup_maps_last_write_wins (map : HardwareMap) (g : Nat) :
    assocFind (setup_maps map).m_geo_id_to_info_map g = lastWithGeo g map.link_infos :=
  setup_find_eq_lastWithGeo map g

theorem lastWithGeo_of_nodup {l : List HWInfo} {h : HWInfo}
    (hu : (l.map get_geo_id).Nodup) (hmem : h ∈ l) :
    lastWithGeo (get_geo_id h) l = some h := by
  induction l with
  | nil => simp at hmem
  | cons a rest ih =>
    simp only [List.map_cons, List.nodup_cons] at hu
    obtain ⟨hnotin, hrest⟩ := hu
    rcases List.mem_cons.mp hmem with rfl | hmem'
    · have hnone : lastWithGeo (get_geo_id h) rest = none :=
        lastWithGeo_eq_none_iff.mpr fun x hx hg =>
          hnotin (hg ▸ List.mem_map_of_mem get_geo_id hx)
      unfold lastWithGeo
      rw [hnone]
      simp
    · unfold lastWithGeo
      rw [ih hrest hmem']

/-- Under unique geo-ids, looking a stored record's geo-id up returns it. -/
theorem geo_lookup_of_mem {map : HardwareMap} {h : HWInfo}
    (hu : (map.link_infos.map get_geo_id).Nodup) (hmem : h ∈ map.link_infos) :
    get_hw_info_from_geo_id (setup_maps map) (get_geo_id h) = h := by
  unfold get_hw_info_from_geo_id
  rw [setup_find_eq_lastWithGeo, lastWithGeo_of_nodup hu hmem]

/-- Claim C2: with unique geo-ids across the input, every input record is
returned unchanged by `get_hw_info_from_geo_id` at its own geo-id. -/
theorem get_hw_info_from_geo_id_roundtrip (map : HardwareMap) (h : HWInfo)
    (hu : (map.link_infos.map get_geo_id).Nodup) (hmem : h ∈ map.link_infos) :
    get_hw_info_from_geo_id (setup_maps map) (get_geo_id h) = h :=
  geo_lookup_of_mem hu hmem

/-! ### Concrete data for witnesses -/

def wHostA : String := "hostA"

def wRecA : HWInfo :=
  { dro_source_id := 1, det_link := 2, det_slot := 3, det_crate := 4, det_id := 5,
    dro_host := wHostA, dro_card := 10, dro_slr := 0, dro_link := 0, from_file := true }

def wRecB : HWInfo :=
  { dro_source_id := 1, det_link := 6, det_slot := 3, det_crate := 4, det_id := 5,
    dro_host := wHostA, dro_card := 10, dro_slr := 1, dro_link := 1, from_file := true }

def wMap : HardwareMap := { link_infos := [wRecA, wRecB] }

def no_dro_host : String := "nosuchhost"

/-- Witness for C2: looking up the first record of the two-record map by its
geo-id returns it unchanged. -/
theorem get_hw_info_from_geo_id_roundtrip_witness :
    get_hw_info_from_geo_id (setup_maps wMap) (get_geo_id wRecA) = wRecA :=
  get_hw_info_from_geo_id_roundtrip wMap wRecA (by decide) (by decide)

/-! ### Generic association-list lemmas -/

theorem assocFind_append_of_none {α β : Type} [DecidableEq α]
    {m m' : List (α × β)} {s : α} (h : assocFind m s = none) :
    assocFind (m ++ m') s = assocFind m' s := by
  induction m with
  | nil => simp
  | cons e rest ih =>
    obtain ⟨k, v⟩ := e
    by_cases hk : k = s
    · simp [assocFind, hk] at h
    · simp only [List.cons_append]
      simp only [assocFind, if_neg hk] at h ⊢
      exact ih h

theorem assocFind_append_of_some {α β : Type} [DecidableEq α]
    {m m' : List (α × β)} {s : α} {w : β} (h : assocFind m s = some w) :
    assocFind (m ++ m') s = some w := by
  induction m with
  | nil => simp [assocFind] at h
  | cons e rest ih =>
    obtain ⟨k, v⟩ := e
    by_cases hk : k = s
    · simp only [assocFind, if_pos hk] at h
      simp only [List.cons_append, assocFind, if_pos hk]
      exact h
    · simp only [assocFind, if_neg hk] at h
      simp only [List.cons_append, assocFind, if_neg hk]
      exact ih h

theorem assocFind_assocUpdate_self {α β : Type} [DecidableEq α]
    {m : List (α × β)} {k : α} {w : β} (v : β) (h : assocFind m k = some w) :
    assocFind (assocUpdate m k v) k = some v := by
  induction m with
  | nil => simp [assocFind] at h
  | cons e rest ih =>
    obtain ⟨k', v'⟩ := e
    by_cases hk : k' = k
    · simp [assocUpdate, hk, assocFind]
    · simp only [assocFind, if_neg hk] at h
      simp only [assocUpdate, if_neg hk, assocFind]
      exact ih h

theorem assocFind_assocUpdate_ne {α β : Type} [DecidableEq α]
    {m : List (α × β)} {k j : α} (v : β) (hne : k ≠ j) :
    assocFind (assocUpdate m k v) j = assocFind m j := by
  induction m with
  | nil => simp [assocUpdate]
  | cons e rest ih =>
    obtain ⟨k', v'⟩ := e
    by_cases hk : k' = k
    · subst hk
      simp only [assocUpdate, if_pos rfl, assocFind, if_neg hne]
    · simp only [assocUpdate, if_neg hk, assocFind]
      by_cases hj : k' = j
      · rw [if_pos hj, if_pos hj]
      · rw [if_neg hj, if_neg hj]
        exact ih

/-! ### Lemmas about the source-id index -/

theorem srcInsert_find_ne {hw : HWInfo} {m : List (Nat × List HWInfo)} {s : Nat}
    (hne : hw.dro_source_id ≠ s) : assocFind (srcInsert hw m) s = assocFind m s := by
  rcases hf : assocFind m hw.dro_source_id with _ | vec
  · simp only [srcInsert, hf]
    rcases hs : assocFind m s with _ | w
    · rw [assocFind_append_of_none hs]
      simp [assocFind, hne]
    · exact assocFind_append_of_some hs
  · simp only [srcInsert, hf]
    exact assocFind_assocUpdate_ne _ hne

theorem srcInsert_find_self {hw : HWInfo} {m : List (Nat × List HWInfo)} :
    assocFind (srcInsert hw m) hw.dro_source_id =
      some ((assocFind m hw.dro_source_id).getD [] ++ [hw]) := by
  rcases hf : assocFind m hw.dro_source_id with _ | vec
  · simp only [srcInsert, hf, Option.getD_none, List.nil_append]
    rw [assocFind_append_of_none hf]
    simp [assocFind]
  · simp only [srcInsert, hf, Option.getD_some]
    exact assocFind_assocUpdate_self _ hf

theorem loop1_src_find_none {s : Nat} {l : List HWInfo}
    (hl : ∀ h ∈ l, h.dro_source_id ≠ s) :
    ∀ gm sm, assocFind sm s = none → assocFind (setup_loop1 l (gm, sm)).2 s = none := by
  induction l with
  | nil =>
    intro gm sm h
    simpa [setup_loop1] using h
  | cons a rest ih =>
    intro gm sm h
    simp only [setup_loop1]
    refine ih (fun x hx => hl x (List.mem_cons_of_mem _ hx)) _ _ ?_
    rw [srcInsert_find_ne (hl a (List.mem_cons_self ..))]
    exact h

theorem loop1_src_mem {l : List HWInfo} :
    ∀ gm sm {s : Nat} {vec : List HWInfo} {r : HWInfo},
      assocFind (setup_loop1 l (gm, sm)).2 s = some vec → r ∈ vec →
      (∃ vec0, assocFind sm s = some vec0 ∧ r ∈ vec0) ∨ r ∈ l := by
  induction l with
  | nil =>
    intro gm sm s vec r hf hr
    exact Or.inl ⟨vec, by simpa [setup_loop1] using hf, hr⟩
  | cons a rest ih =>
    intro gm sm s vec r hf hr
    simp only [setup_loop1] at hf
    rcases ih _ _ hf hr with ⟨vec0, hv0, hrv⟩ | hmem
    · by_cases hs : a.dro_source_id = s
      · subst hs
        rw [srcInsert_find_self] at hv0
        injection hv0 with hv0
        subst hv0
        rcases List.mem_append.mp hrv with h | h
        · rcases hgd : assocFind sm a.dro_source_id with _ | v0
          · rw [hgd] at h
            simp at h
          · rw [hgd] at h
            exact Or.inl ⟨v0, rfl, by simpa using h⟩
        · simp at h
          subst h
          exact Or.inr (List.mem_cons_self ..)
      · rw [srcInsert_find_ne hs] at hv0
        exact Or.inl ⟨vec0, hv0, hrv⟩
    · exact Or.inr (List.mem_cons_of_mem _ hmem)

/-- The source-id index of a constructed service, looked up at an absent
source id, holds nothing. -/
theorem setup_src_find_none {map : HardwareMap} {s : Nat}
    (hs : ∀ h ∈ map.link_infos, h.dro_source_id ≠ s) :
    assocFind (setup_maps map).m_source_id_to_geo_ids_map s = none :=
  loop1_src_find_none hs [] [] rfl

/-- Claim C3: the asymmetric not-found semantics of the three lookups — an
absent geo-id yields the default record with `from_file = false`, an absent
source id yields the empty list, and an absent (host, card) pair yields the
thrown `runtime_error` (modelled as `Except.error`). -/
theorem lookup_miss_semantics (map : HardwareMap) (g s : Nat)
    (host_name : String) (card : Nat)
    (hg : ∀ h ∈ map.link_infos, get_geo_id h ≠ g)
    (hs : ∀ h ∈ map.link_infos, h.dro_source_id ≠ s)
    (hd : assocFind (setup_maps map).m_dro_info_map (host_name, card) = none) :
    get_hw_info_from_geo_id (setup_maps map) g = { defaultHWInfo with from_file := false } ∧
    get_hw_info_from_source_id (setup_maps map) s = [] ∧
    get_dro_info (setup_maps map) host_name card =
      Except.error (dro_error_msg host_name card) := by
  refine ⟨?_, ?_, ?_⟩
  · unfold get_hw_info_from_geo_id
    rw [setup_find_eq_lastWithGeo, lastWithGeo_eq_none_iff.mpr hg]
  · unfold get_hw_info_from_source_id
    rw [setup_src_find_none hs]
  · unfold get_dro_info
    rw [hd]

/-- Witness for C3 on the two-record map: geo-id 0, source id 99 and the
(host, card) pair (`no_dro_host`, 0) are all absent. -/
theorem lookup_miss_semantics_witness :
    get_hw_info_from_geo_id (setup_maps wMap) 0 =
      { defaultHWInfo with from_file := false } ∧
    get_hw_info_from_source_id (setup_maps wMap) 99 = [] ∧
    get_dro_info (setup_maps wMap) no_dro_host 0 =
      Except.error (dro_error_msg no_dro_host 0) :=
  lookup_miss_semantics wMap 0 99 no_dro_host 0 (by decide) (by decide) (by decide)

/-! ### Lemmas about the geo-id index entries -/

theorem loop1_geo_entries {l : List HWInfo} :
    ∀ gm sm {e : Nat × HWInfo}, e ∈ (setup_loop1 l (gm, sm)).1 →
      e ∈ gm ∨ (e.2 ∈ l ∧ e.1 = get_geo_id e.2) := by
  induction l with
  | nil =>
    intro gm sm e he
    exact Or.inl (by simpa [setup_loop1] using he)
  | cons a rest ih =>
    intro gm sm e he
    simp only [setup_loop1] at he
    rcases ih _ _ he with hgm | ⟨hmem, hkey⟩
    · rcases mem_insertSorted hgm with rfl | h
      · exact Or.inr ⟨List.mem_cons_self .., rfl⟩
      · exact Or.inl h
    · exact Or.inr ⟨List.mem_cons_of_mem _ hmem, hkey⟩

theorem loop1_geo_pairwise {l : List HWInfo} :
    ∀ gm sm, List.Pairwise (· < ·) (gm.map Prod.fst) →
      List.Pairwise (· < ·) ((setup_loop1 l (gm, sm)).1.map Prod.fst) := by
  induction l with
  | nil =>
    intro gm sm h
    simpa [setup_loop1] using h
  | cons a rest ih =>
    intro gm sm h
    simp only [setup_loop1]
    exact ih _ _ (pairwise_keys_insertSorted h)

theorem loop1_geo_keys {l : List HWInfo} :
    ∀ gm sm (j : Nat), j ∈ (setup_loop1 l (gm, sm)).1.map Prod.fst ↔
      j ∈ gm.map Prod.fst ∨ j ∈ l.map get_geo_id := by
  induction l with
  | nil =>
    intro gm sm j
    simp [setup_loop1]
  | cons a rest ih =>
    intro gm sm j
    simp only [setup_loop1]
    rw [ih]
    rw [mem_keys_insertSorted]
    simp only [List.map_cons, List.mem_cons]
    tauto

/-- The geo-id index of a constructed service has strictly increasing keys. -/
theorem setup_geo_pairwise (map : HardwareMap) :
    List.Pairwise (· < ·) ((setup_maps map).m_geo_id_to_info_map.map Prod.fst) :=
  loop1_geo_pairwise [] [] (by simp)

/-- Every entry of the constructed geo-id index is keyed by the geo-id of
the record it stores, and that record is an input record. -/
theorem setup_geo_entries {map : HardwareMap} {e : Nat × HWInfo}
    (he : e ∈ (setup_maps map).m_geo_id_to_info_map) :
    e.2 ∈ map.link_infos ∧ e.1 = get_geo_id e.2 := by
  rcases loop1_geo_entries [] [] he with h | h
  · simp at h
  · exact h

/-- Under unique geo-ids, every input record appears as an entry of the
constructed geo-id index. -/
theorem mem_geo_entries_of_mem {map : HardwareMap} {h : HWInfo}
    (hu : (map.link_infos.map get_geo_id).Nodup) (hmem : h ∈ map.link_infos) :
    (get_geo_id h, h) ∈ (setup_maps map).m_geo_id_to_info_map := by
  apply assocFind_mem
  rw [setup_find_eq_lastWithGeo, lastWithGeo_of_nodup hu hmem]

/-! ### Lemmas about the DRO index -/

theorem droInsert_find_self {hwi : HWInfo} {m : List ((String × Nat) × DROInfo)} :
    assocFind (droInsert hwi m) (hwi.dro_host, hwi.dro_card) =
      some (match assocFind m (hwi.dro_host, hwi.dro_card) with
            | some d => { d with links := d.links ++ [hwi] }
            | none => { dro_host := hwi.dro_host, dro_card := hwi.dro_card,
                        links := [hwi] }) := by
  rcases hf : assocFind m (hwi.dro_host, hwi.dro_card) with _ | d
  · simp only [droInsert, hf]
    rw [assocFind_append_of_none hf]
    simp [assocFind]
  · simp only [droInsert, hf]
    exact assocFind_assocUpdate_self _ hf

theorem droInsert_find_ne {hwi : HWInfo} {m : List ((String × Nat) × DROInfo)}
    {key : String × Nat} (hne : (hwi.dro_host, hwi.dro_card) ≠ key) :
    assocFind (droInsert hwi m) key = assocFind m key := by
  rcases hf : assocFind m (hwi.dro_host, hwi.dro_card) with _ | d
  · simp only [droInsert, hf]
    rcases hk : assocFind m key with _ | w
    · rw [assocFind_append_of_none hk]
      simp [assocFind, hne]
    · exact assocFind_append_of_some hk
  · simp only [droInsert, hf]
    exact assocFind_assocUpdate_ne _ hne

/-- `r` is stored in the `links` of the DRO bucket for `key`. -/
def MemLinks (r : HWInfo) (key : String × Nat)
    (m : List ((String × Nat) × DROInfo)) : Prop :=
  ∃ d, assocFind m key = some d ∧ r ∈ d.links

theorem memLinks_droInsert {r : HWInfo} {key : String × Nat} {hwi : HWInfo}
    {m : List ((String × Nat) × DROInfo)} :
    MemLinks r key (droInsert hwi m) ↔
      MemLinks r key m ∨ (r = hwi ∧ (hwi.dro_host, hwi.dro_card) = key) := by
  by_cases hk : (hwi.dro_host, hwi.dro_card) = key
  · constructor
    · rintro ⟨d, hd, hr⟩
      rw [← hk] at hd
      rw [droInsert_find_self] at hd
      injection hd with hd
      subst hd
      rcases hf : assocFind m (hwi.dro_host, hwi.dro_card) with _ | d0
      · rw [hf] at hr
        simp at hr
        exact Or.inr ⟨hr, hk⟩
      · rw [hf] at hr
        simp at hr
        rcases hr with hr | hr
        · exact Or.inl ⟨d0, hk ▸ hf, hr⟩
        · exact Or.inr ⟨hr, hk⟩
    · rintro (⟨d, hd, hr⟩ | ⟨rfl, hkey⟩)
      · subst hk
        refine ⟨_, droInsert_find_self, ?_⟩
        rw [hd]
        simp [hr]
      · subst hkey
        refine ⟨_, droInsert_find_self, ?_⟩
        rcases hf : assocFind m (r.dro_host, r.dro_card) with _ | d0 <;> simp [hf]
  · unfold MemLinks
    rw [droInsert_find_ne hk]
    constructor
    · exact fun h => Or.inl h
    · rintro (h | ⟨rfl, hkey⟩)
      · exact h
      · exact absurd hkey hk

theorem memLinks_loop2 {r : HWInfo} {key : String × Nat} :
    ∀ (entries : List (Nat × HWInfo)) dm,
      MemLinks r key (setup_loop2 entries dm) ↔
        MemLinks r key dm ∨
          ∃ g, (g, r) ∈ entries ∧ (r.dro_host, r.dro_card) = key := by
  intro entries
  induction entries with
  | nil =>
    intro dm
    simp [setup_loop2]
  | cons e rest ih =>
    intro dm
    obtain ⟨g0, h0⟩ := e
    simp only [setup_loop2]
    rw [ih, memLinks_droInsert]
    constructor
    · rintro ((h | ⟨rfl, hkey⟩) | ⟨g, hg, hkey⟩)
      · exact Or.inl h
      · exact Or.inr ⟨g0, List.mem_cons_self .., hkey⟩
      · exact Or.inr ⟨g, List.mem_cons_of_mem _ hg, hkey⟩
    · rintro (h | ⟨g, hg, hkey⟩)
      · exact Or.inl (Or.inl h)
      · rcases List.mem_cons.mp hg with he | hg'
        · injection he with h1 h2
          subst h2
          exact Or.inl (Or.inr ⟨rfl, hkey⟩)
        · exact Or.inr ⟨g, hg', hkey⟩

/-- `MemLinks` on the constructed DRO index, characterised by the input. -/
theorem memLinks_setup {map : HardwareMap} {r : HWInfo} {key : String × Nat} :
    MemLinks r key (setup_maps map).m_dro_info_map ↔
      ∃ g, (g, r) ∈ (setup_maps map).m_geo_id_to_info_map ∧
        (r.dro_host, r.dro_card) = key := by
  have hdm : (setup_maps map).m_dro_info_map =
      setup_loop2 (setup_maps map).m_geo_id_to_info_map [] := rfl
  rw [hdm, memLinks_loop2]
  constructor
  · rintro (⟨d, hd, _⟩ | h)
    · simp [assocFind] at hd
    · exact h
  · exact fun h => Or.inr h

/-- Claim C4: with unique geo-ids, for a (host, card) pair present in the
input, `get_dro_info` succeeds and its `links` hold exactly the input
records whose host and card match. -/
theorem get_dro_info_links_exact (map : HardwareMap) (host_name : String)
    (card : Nat) (hu : (map.link_infos.map get_geo_id).Nodup)
    (hp : ∃ h ∈ map.link_infos, h.dro_host = host_name ∧ h.dro_card = card) :
    ∃ dro, get_dro_info (setup_maps map) host_name card = Except.ok dro ∧
      ∀ r, r ∈ dro.links ↔
        (r ∈ map.link_infos ∧ r.dro_host = host_name ∧ r.dro_card = card) := by
  obtain ⟨h0, hmem0, hh, hc⟩ := hp
  have hml : MemLinks h0 (host_name, card) (setup_maps map).m_dro_info_map := by
    rw [memLinks_setup]
    exact ⟨get_geo_id h0, mem_geo_entries_of_mem hu hmem0, by rw [hh, hc]⟩
  obtain ⟨d, hfd, _⟩ := hml
  refine ⟨d, ?_, ?_⟩
  · unfold get_dro_info
    rw [hfd]
  · intro r
    constructor
    · intro hr
      have hml' : MemLinks r (host_name, card) (setup_maps map).m_dro_info_map :=
        ⟨d, hfd, hr⟩
      rw [memLinks_setup] at hml'
      obtain ⟨g, hg, hkey⟩ := hml'
      obtain ⟨hin, _⟩ := setup_geo_entries hg
      injection hkey with h1 h2
      exact ⟨hin, h1, h2⟩
    · rintro ⟨hrmem, hrh, hrc⟩
      have hml' : MemLinks r (host_name, card) (setup_maps map).m_dro_info_map := by
        rw [memLinks_setup]
        exact ⟨get_geo_id r, mem_geo_entries_of_mem hu hrmem, by rw [hrh, hrc]⟩
      obtain ⟨d', hfd', hrd'⟩ := hml'
      rw [hfd] at hfd'
      injection hfd' with hfd'
      subst hfd'
      exact hrd'

/-- Witness for C4: both records of the two-record map share
(host, card) = (`wHostA`, 10). -/
theorem get_dro_info_links_exact_witness :
    ∃ dro, get_dro_info (setup_maps wMap) wHostA 10 = Except.ok dro ∧
      ∀ r, r ∈ dro.links ↔
        (r ∈ wMap.link_infos ∧ r.dro_host = wHostA ∧ r.dro_card = 10) :=
  get_dro_info_links_exact wMap wHostA 10 (by decide)
    ⟨wRecA, by decide, by decide, by decide⟩

/-! ### Claim C6: cross-index consistency -/

def dupHostX : String := "hostX"

def dupHostY : String := "hostY"

/-- Two input records with the same detector coordinates (hence the same
geo-id) and the same source id, but different DRO hosts/cards. -/
def dupA : HWInfo :=
  { dro_source_id := 7, det_link := 1, det_slot := 1, det_crate := 1, det_id := 1,
    dro_host := dupHostX, dro_card := 1, dro_slr := 0, dro_link := 0, from_file := true }

def dupB : HWInfo :=
  { dro_source_id := 7, det_link := 1, det_slot := 1, det_crate := 1, det_id := 1,
    dro_host := dupHostY, dro_card := 2, dro_slr := 0, dro_link := 0, from_file := true }

def dupMap : HardwareMap := { link_infos := [dupA, dupB] }

/-- Counterexample to C6 as stated: with two records sharing a geo-id, the
source-id bucket still holds the first record, but the geo-id index was
overwritten by the second, so the geo-id lookup of the first record's geo-id
does not return it. -/
theorem index_views_claim_counterexample :
    dupA ∈ get_hw_info_from_source_id (setup_maps dupMap) 7 ∧
    get_hw_info_from_geo_id (setup_maps dupMap) (get_geo_id dupA) ≠ dupA := by
  decide

/-- Claim C6 (amended with unique geo-ids across the input): every record
reachable through the source-id index or the DRO index is returned unchanged
by the geo-id index at its own geo-id. -/
theorem index_views_consistent_of_unique (map : HardwareMap) (r : HWInfo)
    (hu : (map.link_infos.map get_geo_id).Nodup)
    (hr : (∃ s, r ∈ get_hw_info_from_source_id (setup_maps map) s) ∨
          (∃ host_name card dro,
            get_dro_info (setup_maps map) host_name card = Except.ok dro ∧
              r ∈ dro.links)) :
    get_hw_info_from_geo_id (setup_maps map) (get_geo_id r) = r := by
  rcases hr with ⟨s, hmem⟩ | ⟨host_name, card, dro, hok, hmem⟩
  · unfold get_hw_info_from_source_id at hmem
    rcases hf : assocFind (setup_maps map).m_source_id_to_geo_ids_map s with _ | vec
    · rw [hf] at hmem
      simp at hmem
    · rw [hf] at hmem
      have hf' : assocFind (setup_loop1 map.link_infos ([], [])).2 s = some vec := hf
      rcases loop1_src_mem [] [] hf' hmem with ⟨v0, hv0, _⟩ | hmem'
      · simp [assocFind] at hv0
      · exact geo_lookup_of_mem hu hmem'
  · unfold get_dro_info at hok
    rcases hf : assocFind (setup_maps map).m_dro_info_map (host_name, card) with _ | d
    · rw [hf] at hok
      simp at hok
    · rw [hf] at hok
      injection hok with hok
      subst hok
      have hml : MemLinks r (host_name, card) (setup_maps map).m_dro_info_map :=
        ⟨d, hf, hmem⟩
      rw [memLinks_setup] at hml
      obtain ⟨g, hg, _⟩ := hml
      obtain ⟨_, hkey⟩ := setup_geo_entries hg
      unfold get_hw_info_from_geo_id
      rw [← hkey, assocFind_eq_some_of_mem (setup_geo_pairwise map) hg]

/-- Witness for the amended C6: the second record of the two-record map is
reachable via source id 1 and round-trips through the geo-id index. -/
theorem index_views_consistent_of_unique_witness :
    get_hw_info_from_geo_id (setup_maps wMap) (get_geo_id wRecB) = wRecB :=
  index_views_consistent_of_unique wMap wRecB (by decide) (Or.inl ⟨1, by decide⟩)

/-! ### Claim C9: `get_hardware_map` ordering -/

/-- Claim C9: `get_hardware_map` returns exactly the geo-id index's records
in the index's iteration order: the returned geo-ids are strictly
increasing (hence not the file order in general), duplicate-free (one record
per distinct geo-id), and cover exactly the geo-ids of the input. -/
theorem get_hardware_map_ordered (map : HardwareMap) :
    (get_hardware_map (setup_maps map)).link_infos =
      (setup_maps map).m_geo_id_to_info_map.map (fun gid => gid.2) ∧
    ((get_hardware_map (setup_maps map)).link_infos.map get_geo_id).Pairwise (· < ·) ∧
    ((get_hardware_map (setup_maps map)).link_infos.map get_geo_id).Nodup ∧
    ∀ g, g ∈ (get_hardware_map (setup_maps map)).link_infos.map get_geo_id ↔
      g ∈ map.link_infos.map get_geo_id := by
  have hmapeq : (get_hardware_map (setup_maps map)).link_infos.map get_geo_id =
      (setup_maps map).m_geo_id_to_info_map.map Prod.fst := by
    unfold get_hardware_map
    rw [List.map_map]
    apply List.map_congr_left
    intro e he
    exact (setup_geo_entries he).2.symm
  refine ⟨rfl, ?_, ?_, ?_⟩
  · rw [hmapeq]
    exact setup_geo_pairwise map
  · rw [hmapeq]
    exact List.Pairwise.imp (fun h => Nat.ne_of_lt h) (setup_geo_pairwise map)
  · intro g
    rw [hmapeq]
    have hkeys := loop1_geo_keys (l := map.link_infos) [] [] g
    have hgeo : (setup_maps map).m_geo_id_to_info_map =
        (setup_loop1 map.link_infos ([], [])).1 := rfl
    rw [hgeo, hkeys]
    simp

/-! ### The file-reading constructor

`HardwareMapService::HardwareMapService(const std::string&)` reads the file
line by line, skips a line when `line.size() == 0` or
`line[line.find_first_not_of(" \t")] == '#'`, and otherwise extracts the
nine fields with `std::stringstream` `operator>>`. -/

/-- `std::string::npos` on a 64-bit platform. -/
def NPOS : Nat := 2 ^ 64 - 1

def isSpaceTab (c : Char) : Bool := c == ' ' || c == '\t'

/-- `line.find_first_not_of(" \t")`: the index of the first character that
is neither a space nor a tab, or `npos` when every character is one. -/
def find_first_not_of_space_tab (line : List Char) : Nat :=
  match line.findIdx? (fun c => !(isSpaceTab c)) with
  | some i => i
  | none => NPOS

/-- The skip condition of the read loop.  The character access
`line[line.find_first_not_of(" \t")]` is modelled totally with `List.getD`;
this agrees with the C++ exactly when the computed index is within the
line's bounds.  When the line is non-empty but all whitespace the index is
`npos` and the C++ access is out of bounds (undefined behaviour) — see
`comment_check_index_out_of_bounds`. -/
def lineSkipped (line : List Char) : Bool :=
  line.length == 0 || line.getD (find_first_not_of_space_tab line) ' ' == '#'

/-- The whitespace set of `std::istream` formatted extraction. -/
def isStreamSpace (c : Char) : Bool :=
  c == ' ' || c == '\t' || c == '\n' || c == '\r' || c == '\x0b' || c == '\x0c'

/-- A `std::stringstream` over the line: remaining characters plus failbit. -/
structure StreamState where
  rest : List Char
  failed : Bool

def digitsToNat (ds : List Char) : Nat :=
  ds.foldl (fun acc c => 10 * acc + (c.toNat - 48)) 0

/-- `stream >> numeric_field`, modelled for non-negative decimal tokens (the
hardware-map format's domain): skip whitespace and read a maximal digit run.
No digits sets the value to 0 and the failbit (C++11); an already-failed
stream leaves the value untouched. -/
def extractNat (st : StreamState) (old : Nat) : Nat × StreamState :=
  if st.failed then (old, st)
  else
    let r := st.rest.dropWhile isStreamSpace
    let ds := r.takeWhile (fun c => c.isDigit)
    if ds.isEmpty then (0, { rest := r, failed := true })
    else (digitsToNat ds, { rest := r.dropWhile (fun c => c.isDigit), failed := false })

/-- `stream >> string_field`: skip whitespace, take the maximal
non-whitespace run; an empty run erases the string and sets the failbit. -/
def extractString (st : StreamState) (old : String) : String × StreamState :=
  if st.failed then (old, st)
  else
    let r := st.rest.dropWhile isStreamSpace
    let ds := r.takeWhile (fun c => !(isStreamSpace c))
    if ds.isEmpty then ("", { rest := r, failed := true })
    else (String.mk ds, { rest := r.dropWhile (fun c => !(isStreamSpace c)), failed := false })

/-- One non-skipped line of the read loop: a default-constructed `HWInfo`,
the nine chained extractions, then `from_file = true`. -/
def parseLine (line : List Char) : HWInfo :=
  let st0 : StreamState := { rest := line, failed := false }
  let p1 := extractNat st0 defaultHWInfo.dro_source_id
  let p2 := extractNat p1.2 defaultHWInfo.det_link
  let p3 := extractNat p2.2 defaultHWInfo.det_slot
  let p4 := extractNat p3.2 defaultHWInfo.det_crate
  let p5 := extractNat p4.2 defaultHWInfo.det_id
  let p6 := extractString p5.2 defaultHWInfo.dro_host
  let p7 := extractNat p6.2 defaultHWInfo.dro_card
  let p8 := extractNat p7.2 defaultHWInfo.dro_slr
  let p9 := extractNat p8.2 defaultHWInfo.dro_link
  { dro_source_id := p1.1, det_link := p2.1, det_slot := p3.1, det_crate := p4.1,
    det_id := p5.1, dro_host := p6.1, dro_card := p7.1, dro_slr := p8.1,
    dro_link := p9.1, from_file := true }

/-- The read loop of the file constructor, after the file has been opened
and split into lines. -/
def hardware_map_from_lines (lines : List String) : HardwareMap :=
  { link_infos := lines.filterMap fun ln =>
      if lineSkipped ln.toList then none else some (parseLine ln.toList) }

def c7Line1 : String := "1 2 3 4 5 hostA 10 0 0"

def c7Line2 : String := "# comment"

def c7Line3 : String := ""

def c7Lines : List String := [c7Line1, c7Line2, c7Line3]

/-- Claim C7: the three-line file `1 2 3 4 5 hostA 10 0 0`, `# comment` and
a blank line parses to exactly one record — `from_file = true`,
`dro_source_id = 1`, `dro_host = "hostA"`, `dro_card = 10` — whose geo-id
is `(2 << 48) | (3 << 32) | (4 << 16) | 5`. -/
theorem file_parse_scenario :
    (hardware_map_from_lines c7Lines).link_infos = [wRecA] ∧
    wRecA.from_file = true ∧ wRecA.dro_source_id = 1 ∧
    wRecA.dro_host = wHostA ∧ wRecA.dro_card = 10 ∧
    get_geo_id wRecA = (2 <<< 48 ||| 3 <<< 32 ||| 4 <<< 16 ||| 5) := by
  decide

def wsOnlyLine : String := "  \t "

/-- Claim C8 evaluation: on a non-empty line of spaces and tabs only,
`find_first_not_of(" \t")` is `npos`, so the comment-marker access
`line[npos]` indexes far beyond the line's bounds (undefined behaviour in
C++), contradicting the claimed in-bounds access. -/
theorem comment_check_index_out_of_bounds :
    wsOnlyLine.toList.length ≠ 0 ∧
    find_first_not_of_space_tab wsOnlyLine.toList = NPOS ∧
    ¬ find_first_not_of_space_tab wsOnlyLine.toList < wsOnlyLine.toList.length := by
  decide

/-! ### The channel-map adapter (`src/plugins/PD2HDChannelMap.cpp`)

The external `dune::PD2HDChannelMapSP` collaborator is opaque to this
repository; it is modelled abstractly by its two lookup functions and the
channel-info record they return. -/

/-- The channel-info record of the external library, with the fields the
adapter reads. -/
structure ChanInfo where
  offlchan : Nat
  crate : Nat
  wib : Nat
  link : Nat
  wibframechan : Nat
  plane : Nat
  valid : Bool

/-- The external channel map, abstract in its two lookups. -/
structure PD2HDChannelMapSP where
  GetChanInfoFromWIBElements : Nat → Nat → Nat → Nat → ChanInfo
  GetChanInfoFromOfflChan : Nat → ChanInfo

/-- Modelled from the spec: the coordinate tuple `TPCCoords` (declared in
the repository's `TPCChannelMap.hpp` header, not under `src/`): crate,
slot, fiber, channel. -/
structure TPCCoords where
  crate : Nat
  slot : Nat
  fiber : Nat
  channel : Nat
deriving DecidableEq, Repr

/-- `PD2HDChannelMap::get_offline_channel_from_crate_slot_fiber_chan`:
`return -1` on an invalid lookup, where the `uint` return type turns `-1`
into `2 ^ 32 - 1`. -/
def get_offline_channel_from_crate_slot_fiber_chan (m : PD2HDChannelMapSP)
    (crate slot link wibframechan : Nat) : Nat :=
  let chan_info := m.GetChanInfoFromWIBElements crate slot link wibframechan
  if !chan_info.valid then 2 ^ 32 - 1 else chan_info.offlchan

/-- `PD2HDChannelMap::get_plane_from_offline_channel`. -/
def get_plane_from_offline_channel (m : PD2HDChannelMapSP) (offchannel : Nat) : Nat :=
  let chan_info := m.GetChanInfoFromOfflChan offchannel
  if !chan_info.valid then 9999 else chan_info.plane

/-- `PD2HDChannelMap::get_crate_slot_fiber_chan_from_offline_channel`; the
slot component is `ci.wib - 1` in 32-bit unsigned arithmetic. -/
def get_crate_slot_fiber_chan_from_offline_channel (m : PD2HDChannelMapSP)
    (offchannel : Nat) : Option TPCCoords :=
  let ci := m.GetChanInfoFromOfflChan offchannel
  if !ci.valid then none
  else some { crate := ci.crate, slot := (ci.wib + (2 ^ 32 - 1)) % 2 ^ 32,
              fiber := ci.link, channel := ci.wibframechan }

/-- Claim C10: the adapter resolves soft absences as sentinels, never as
errors: an invalid crate/slot/fiber/channel lookup yields the unsigned
wraparound of `-1` (`2 ^ 32 - 1`), an unrecognised offline channel yields
plane `9999`, and the coordinate query yields `none`. -/
theorem channel_map_soft_absence (m : PD2HDChannelMapSP)
    (crate slot link wibframechan offchannel : Nat)
    (h1 : (m.GetChanInfoFromWIBElements crate slot link wibframechan).valid = false)
    (h2 : (m.GetChanInfoFromOfflChan offchannel).valid = false) :
    get_offline_channel_from_crate_slot_fiber_chan m crate slot link wibframechan =
      2 ^ 32 - 1 ∧
    get_plane_from_offline_channel m offchannel = 9999 ∧
    get_crate_slot_fiber_chan_from_offline_channel m offchannel = none := by
  refine ⟨?_, ?_, ?_⟩
  · simp [get_offline_channel_from_crate_slot_fiber_chan, h1]
  · simp [get_plane_from_offline_channel, h2]
  · simp [get_crate_slot_fiber_chan_from_offline_channel, h2]

/-- An external map whose every lookup reports invalid. -/
def allInvalidChanInfo : ChanInfo :=
  { offlchan := 0, crate := 0, wib := 0, link := 0, wibframechan := 0,
    plane := 0, valid := false }

def allInvalidMap : PD2HDChannelMapSP :=
  { GetChanInfoFromWIBElements := fun _ _ _ _ => allInvalidChanInfo,
    GetChanInfoFromOfflChan := fun _ => allInvalidChanInfo }

/-- Witness for C10 on the all-invalid external map. -/
theorem channel_map_soft_absence_witness :
    get_offline_channel_from_crate_slot_fiber_chan allInvalidMap 0 0 0 0 =
      2 ^ 32 - 1 ∧
    get_plane_from_offline_channel allInvalidMap 0 = 9999 ∧
    get_crate_slot_fiber_chan_from_offline_channel allInvalidMap 0 = none :=
  channel_map_soft_absence allInvalidMap 0 0 0 0 0 rfl rfl

end DetChannelMaps
